import Mathlib

/-!
Shallow embedding of the Novum composite execution engine
(`pkg/composite/composite.go`, together with `pkg/state/state.go`,
`pkg/effect/effect.go` and `pkg/future/future.go`), and proofs settling
the frozen claims about it.

Modelling conventions:
* `st.StateLayer[int]` becomes `StateLayer` with an `Int` counter.
* `effect.EffectFunc` values are produced in this code base only through
  `NewLogEffect`, so effects are modelled as the log message they carry.
* Go `error` values arising inside the engine are the three engine errors
  (`errors.New("contract violation before Bind: invalid value")`,
  `fmt.Errorf("error in Bind: %w", e)`,
  `errors.New("final contract violation")`); they form `GoError`, and
  `GoError.message` is the `%v` rendering used by `fmt.Sprintf`.
* A `future.Future[T]` is modelled by its eventually resolved outcome
  (exactly one of a value or an error message is ever written to its two
  one-slot channels); `Await` is the pure observation of that outcome.
  Go's zero value `*new(T)` is passed explicitly as `zero`.
* `Parallel` spawns one goroutine per child; each sends on the buffered
  `errCh` and `effCh` channels, so the receive order on each channel is
  some arrival order of the children.  The two orders are passed
  explicitly as index lists `errOrder` and `effOrder`; the per-index
  result slots `results[i]` are order-independent.  The out-of-range
  access `comps[0]` on an empty batch is modelled by `Parallel`
  returning `none`.
-/

namespace Novum

/-- `state.StateLayer[int]`: an immutable counter snapshot. -/
structure StateLayer where
  Counter : Int
deriving DecidableEq, Repr

/-- `state.NewStateLayer`. -/
def NewStateLayer (initial : Int) : StateLayer :=
  { Counter := initial }

/-- `state.StateLayer.Increment`. -/
def StateLayer.Increment (s : StateLayer) : StateLayer :=
  { Counter := s.Counter + 1 }

/-- `effect.EffectFunc`: every effect constructed by the engine is a log
effect carrying a message. -/
inductive EffectFunc where
  | logEffect (message : String)
deriving DecidableEq, Repr

/-- `effect.NewLogEffect`. -/
def NewLogEffect (message : String) : EffectFunc :=
  EffectFunc.logEffect message

/-- The Go `error` values created by the composite engine. -/
inductive GoError where
  | contractViolationBeforeBind
  | bindError (inner : GoError)
  | finalContractViolation
deriving DecidableEq, Repr

/-- The `%v` rendering of an engine error, as used by `fmt.Sprintf`. -/
def GoError.message : GoError → String
  | GoError.contractViolationBeforeBind =>
      "contract violation before Bind: invalid value"
  | GoError.bindError e => "error in Bind: " ++ GoError.message e
  | GoError.finalContractViolation => "final contract violation"

/-- `composite.NovumComposite[T, Deps]`. -/
structure NovumComposite (T : Type) (Deps : Type) where
  value : T
  stateFn : StateLayer → StateLayer
  effects : List EffectFunc
  contractFn : T → Bool
  err : Option GoError
  deps : Deps

/-- `composite.Return`. -/
def Return {T Deps : Type} (value : T) (deps : Deps) : NovumComposite T Deps :=
  { value := value
    stateFn := fun s => s
    effects := []
    contractFn := fun _ => true
    err := none
    deps := deps }

/-- `composite.NovumComposite.Bind`. -/
def Bind {T Deps : Type} (m : NovumComposite T Deps)
    (f : T → Deps → NovumComposite T Deps) : NovumComposite T Deps :=
  match m.err with
  | some _ => m
  | none =>
    if !(m.contractFn m.value) then
      { m with err := some GoError.contractViolationBeforeBind }
    else
      let next := f m.value m.deps
      match next.err with
      | some e => { m with err := some (GoError.bindError e) }
      | none =>
        { value := next.value
          stateFn := fun s => next.stateFn (m.stateFn s)
          effects := m.effects ++ next.effects
          contractFn := next.contractFn
          err := m.err
          deps := m.deps }

/-- `composite.NovumComposite.WithEffect`. -/
def WithEffect {T Deps : Type} (m : NovumComposite T Deps) (e : EffectFunc) :
    NovumComposite T Deps :=
  { m with effects := m.effects ++ [e] }

/-- `composite.NovumComposite.WithContract`. -/
def WithContract {T Deps : Type} (m : NovumComposite T Deps) (fn : T → Bool) :
    NovumComposite T Deps :=
  { m with contractFn := fn }

/-- `composite.NovumComposite.Run`. -/
def Run {T Deps : Type} (m : NovumComposite T Deps) (initialState : StateLayer) :
    T × StateLayer × List EffectFunc × Option GoError :=
  let finalState := m.stateFn initialState
  if !(m.contractFn m.value) then
    (m.value, finalState, m.effects, some GoError.finalContractViolation)
  else
    (m.value, finalState, m.effects, m.err)

/-- `future.Future[T]`, modelled by its eventually resolved outcome:
exactly one of a value or an error message. -/
structure Future (T : Type) where
  resolved : Except String T

/-- `future.Future.Await`: returns `(res, nil)` on success and
`(zero value, err)` on failure. -/
def Future.Await {T : Type} (f : Future T) (zero : T) : T × Option String :=
  match f.resolved with
  | Except.ok res => (res, none)
  | Except.error e => (zero, some e)

/-- `composite.FromFuture`; `zero` is Go's `*new(T)`. -/
def FromFuture {T Deps : Type} (zero : T) (f : Future T) (deps : Deps) :
    NovumComposite T Deps :=
  Bind (Return zero deps) (fun _ deps =>
    match Future.Await f zero with
    | (_, some err) =>
        WithEffect (WithContract (Return zero deps) (fun _ => false))
          (NewLogEffect ("Future error: " ++ err))
    | (res, none) => Return res deps)

/-- The run of one `Parallel` child: `comp.Run(st.NewStateLayer[int](0))`
(a fresh zero-valued state carrier; the final state is discarded by the
goroutine). -/
def childRun {T Deps : Type} (c : NovumComposite T Deps) :
    T × StateLayer × List EffectFunc × Option GoError :=
  Run c (NewStateLayer 0)

/-- The sequence of errors received from `errCh`, in the channel receive
order `errOrder` (one send per goroutine, in arrival order). -/
def errsReceived {T Deps : Type} (comps : List (NovumComposite T Deps))
    (errOrder : List Nat) : List (Option GoError) :=
  errOrder.filterMap (fun i => (comps[i]?).map (fun c => (childRun c).2.2.2))

/-- The `firstErr` scan over the drained `errCh`:
`if err != nil && firstErr == nil { firstErr = err }`. -/
def firstErrScan : List (Option GoError) → Option GoError
  | [] => none
  | some e :: _ => some e
  | none :: rest => firstErrScan rest

/-- The `totalEffects` aggregation over the drained `effCh` in channel
receive order `effOrder`.  The Go code computes this value and then
discards it: neither return path of the bound step attaches it. -/
def totalEffects {T Deps : Type} (comps : List (NovumComposite T Deps))
    (effOrder : List Nat) : List EffectFunc :=
  (effOrder.filterMap (fun i => (comps[i]?).map (fun c => (childRun c).2.2.1))).flatten

/-- The per-index result slots `results[i] = res`, read back in index
order: `results := make([]T, n)` is a non-nil slice, hence `some`. -/
def parallelResults {T Deps : Type} (comps : List (NovumComposite T Deps)) :
    List T :=
  comps.map (fun c => (childRun c).1)

/-- The single summary effect appended by the bound step of `Parallel`:
an error log for the first error received on `errCh`, or a success log. -/
def parallelSummary {T Deps : Type} (comps : List (NovumComposite T Deps))
    (errOrder : List Nat) : EffectFunc :=
  match firstErrScan (errsReceived comps errOrder) with
  | some firstErr =>
      NewLogEffect ("Parallel composite error: " ++ GoError.message firstErr)
  | none => NewLogEffect "Parallel composite executed successfully"

/-- The chain returned by the step function bound inside `Parallel`
after the join barrier (`wg.Wait`) and both channel drains. -/
def parallelStep {T Deps : Type} (comps : List (NovumComposite T Deps))
    (deps : Deps) (errOrder : List Nat) :
    NovumComposite (Option (List T)) Deps :=
  let results := some (parallelResults comps)
  match firstErrScan (errsReceived comps errOrder) with
  | some firstErr =>
      WithEffect (Return results deps)
        (NewLogEffect ("Parallel composite error: " ++ GoError.message firstErr))
  | none =>
      WithEffect (Return results deps)
        (NewLogEffect "Parallel composite executed successfully")

/-- `composite.Parallel`.  `errOrder` and `effOrder` are the receive
orders of `errCh` and `effCh` (arrival orders of the goroutines's sends);
`none` models the out-of-range access `comps[0]` on an empty batch.
The value type `Option (List T)` models Go's nilable slice `[]T`
(`none` is the nil slice), as required by the final contract
`vals != nil`.  The `totalEffects` aggregation of `effOrder` is computed
by the Go code and dropped (see `totalEffects`). -/
def Parallel {T Deps : Type} (comps : List (NovumComposite T Deps))
    (errOrder : List Nat) (effOrder : List Nat) :
    Option (NovumComposite (Option (List T)) Deps) :=
  match comps[0]? with
  | none => none
  | some c0 =>
      let discarded := totalEffects comps effOrder
      some (WithContract
        (Bind (Return none c0.deps) (fun _ deps => parallelStep comps deps errOrder))
        (fun vals => vals.isSome))

/-! Concrete chains used to instantiate the claims (they mirror the
repository's example programs). -/

/-- The example contract `func(n int) bool { return n >= 0 }`. -/
def contractNonNeg : Int → Bool := fun n => decide (0 ≤ n)

/-- The identity step `func(v, d) { return Return(v, d) }`. -/
def stepIdInt : Int → Unit → NovumComposite Int Unit :=
  fun v d => Return v d

/-- The example step adding 10 with its log effect. -/
def step_add10 : Int → Unit → NovumComposite Int Unit :=
  fun v d => WithEffect (Return (v + 10) d) (NewLogEffect "Added 10 to the value")

/-- The example step multiplying by 2 with its log effect. -/
def step_mul2 : Int → Unit → NovumComposite Int Unit :=
  fun v d => WithEffect (Return (v * 2) d) (NewLogEffect "Multiplied the value by 2")

/-- `Return(10, deps).WithContract(n >= 0)`. -/
def chain10 : NovumComposite Int Unit :=
  WithContract (Return 10 ()) contractNonNeg

/-- `chain10.Bind(+10)`. -/
def chain20 : NovumComposite Int Unit :=
  Bind chain10 step_add10

/-- `chain10.Bind(+10).Bind(*2)`. -/
def chain40 : NovumComposite Int Unit :=
  Bind chain20 step_mul2

/-- `Return(-1, deps).WithContract(n >= 0).Bind(id step)`: the bind is
skipped and the chain carries the before-bind contract violation. -/
def chainNegBound : NovumComposite Int Unit :=
  Bind (WithContract (Return (-1) ()) contractNonNeg) stepIdInt

/-- A chain already carrying a terminal error (its always-false contract
fails before its bind step runs). -/
def failingChain : NovumComposite Int Unit :=
  Bind (WithContract (Return 0 ()) (fun _ => false)) stepIdInt

/-- A step function that returns a chain carrying a terminal error. -/
def stepFailing : Int → Unit → NovumComposite Int Unit :=
  fun _ _ => failingChain

/-- A chain with no effects and no error, used as a healthy batch member. -/
def okChild : NovumComposite Int Unit := Return 3 ()

/-- A child whose run reports `error in Bind: contract violation before
Bind: invalid value`. -/
def childA : NovumComposite Int Unit :=
  Bind (Return 5 ()) stepFailing

/-- A child whose run reports the doubly wrapped bind error, distinct
from `childA`'s error. -/
def childB : NovumComposite Int Unit :=
  Bind (Return 7 ()) (fun _ _ => childA)

/-- A child carrying one log effect, used to exhibit effect loss. -/
def childLogged : NovumComposite Int Unit :=
  WithEffect (Return 1 ()) (NewLogEffect "child effect")

/-- First child of the ordered pair batch. -/
def childOne : NovumComposite Int Unit :=
  WithEffect (Return 1 ()) (NewLogEffect "Parallel composite 1")

/-- Second child of the ordered pair batch. -/
def childTwo : NovumComposite Int Unit :=
  WithEffect (Return 2 ()) (NewLogEffect "Parallel composite 2")

/-- The chain produced by `Parallel` on the singleton batch `[Return 1]`. -/
def parallelSingleton : NovumComposite (Option (List Int)) Unit :=
  WithContract
    (Bind (Return none ()) (fun _ d => parallelStep [Return (1 : Int) ()] d [0]))
    (fun vals => vals.isSome)

/-- The chain produced by `Parallel` on `[childOne, childTwo]` with both
channels received in arrival order `[1, 0]`. -/
def parallelPair : NovumComposite (Option (List Int)) Unit :=
  WithContract
    (Bind (Return none ()) (fun _ d => parallelStep [childOne, childTwo] d [1, 0]))
    (fun vals => vals.isSome)

/-- The chain produced by `Parallel` on the singleton batch `[childLogged]`. -/
def parallelLogged : NovumComposite (Option (List Int)) Unit :=
  WithContract
    (Bind (Return none ()) (fun _ d => parallelStep [childLogged] d [0]))
    (fun vals => vals.isSome)

/-- The chain produced by `Parallel` on `[failingChain]`. -/
def parallelFailing : NovumComposite (Option (List Int)) Unit :=
  WithContract
    (Bind (Return none ()) (fun _ d => parallelStep [failingChain] d [0]))
    (fun vals => vals.isSome)

/-- The chain produced by `Parallel` on `[okChild, childA, childB]` when
the goroutines reach the channels in arrival order `[2, 1, 0]`
(index 2 finishes first). -/
def parallelArrival : NovumComposite (Option (List Int)) Unit :=
  WithContract
    (Bind (Return none ()) (fun _ d => parallelStep [okChild, childA, childB] d [2, 1, 0]))
    (fun vals => vals.isSome)

/-! Helper lemmas shared by the claim theorems. -/

/-- `Run` in closed form: the state transform is applied to the initial
state, and the error slot is the terminal error unless the contract
fails on the current value, in which case it is the fresh final
contract violation. -/
theorem run_eq {T Deps : Type} (m : NovumComposite T Deps) (s : StateLayer) :
    Run m s = (m.value, m.stateFn s, m.effects,
      if m.contractFn m.value then m.err else some GoError.finalContractViolation) := by
  unfold Run
  cases h : m.contractFn m.value <;> simp [h]

/-- `Bind` on a chain whose terminal error is set returns it unchanged. -/
theorem bind_err_eq {T Deps : Type} (m : NovumComposite T Deps)
    (f : T → Deps → NovumComposite T Deps) (e : GoError) (h : m.err = some e) :
    Bind m f = m := by
  unfold Bind
  rw [h]

/-- `Bind` when the current value violates the current contract: the
step is not consulted and the before-bind violation is recorded. -/
theorem bind_contract_fail_eq {T Deps : Type} (m : NovumComposite T Deps)
    (f : T → Deps → NovumComposite T Deps)
    (h1 : m.err = none) (h2 : m.contractFn m.value = false) :
    Bind m f = { m with err := some GoError.contractViolationBeforeBind } := by
  unfold Bind
  rw [h1, h2]
  rfl

/-- `Bind` when the step returns a chain carrying a terminal error:
the error is wrapped and set on the original chain, which is otherwise
returned as is. -/
theorem bind_next_err_eq {T Deps : Type} (m : NovumComposite T Deps)
    (f : T → Deps → NovumComposite T Deps) (e : GoError)
    (h1 : m.err = none) (h2 : m.contractFn m.value = true)
    (h3 : (f m.value m.deps).err = some e) :
    Bind m f = { m with err := some (GoError.bindError e) } := by
  unfold Bind
  rw [h1, h2]
  simp only [Bool.not_true, Bool.false_eq_true, if_false]
  rw [h3]

/-- `Bind` on the success path, in closed form. -/
theorem bind_ok_eq {T Deps : Type} (m : NovumComposite T Deps)
    (f : T → Deps → NovumComposite T Deps)
    (h1 : m.err = none) (h2 : m.contractFn m.value = true)
    (h3 : (f m.value m.deps).err = none) :
    Bind m f =
      { value := (f m.value m.deps).value
        stateFn := fun s => (f m.value m.deps).stateFn (m.stateFn s)
        effects := m.effects ++ (f m.value m.deps).effects
        contractFn := (f m.value m.deps).contractFn
        err := none
        deps := m.deps } := by
  unfold Bind
  rw [h1, h2]
  simp only [Bool.not_true, Bool.false_eq_true, if_false]
  rw [h3]

/-- `Bind` never changes the dependency context. -/
theorem bind_deps_eq {T Deps : Type} (m : NovumComposite T Deps)
    (f : T → Deps → NovumComposite T Deps) :
    (Bind m f).deps = m.deps := by
  unfold Bind
  cases h : m.err with
  | some e => rfl
  | none =>
    cases h2 : m.contractFn m.value with
    | false => simp [h2]
    | true =>
      simp only [h2, Bool.not_true, Bool.false_eq_true, if_false]
      cases h3 : (f m.value m.deps).err <;> rfl

/-- The chain returned by the step bound inside `Parallel`, in closed
form: the index-ordered result slots, an identity state transform, the
single summary effect, a trivial contract and no error. -/
theorem parallelStep_eq {T Deps : Type} (comps : List (NovumComposite T Deps))
    (deps : Deps) (eo : List Nat) :
    parallelStep comps deps eo =
      { value := some (parallelResults comps)
        stateFn := fun s => s
        effects := [parallelSummary comps eo]
        contractFn := fun _ => true
        err := none
        deps := deps } := by
  unfold parallelStep parallelSummary
  cases h : firstErrScan (errsReceived comps eo) <;>
    simp [h, WithEffect, Return]

/-- `Parallel` on a non-empty batch, in closed form. -/
theorem parallel_cons_eq {T Deps : Type} (c0 : NovumComposite T Deps)
    (rest : List (NovumComposite T Deps)) (eo fo : List Nat) :
    Parallel (c0 :: rest) eo fo =
      some (WithContract
        (Bind (Return none c0.deps) (fun _ deps => parallelStep (c0 :: rest) deps eo))
        (fun vals => vals.isSome)) := by
  unfold Parallel
  simp only [List.getElem?_cons_zero]

/-- The merged chain of a non-empty `Parallel` batch, fully evaluated. -/
theorem parallel_some_eq {T Deps : Type} (comps : List (NovumComposite T Deps))
    (eo fo : List Nat) (p : NovumComposite (Option (List T)) Deps) (c0 : NovumComposite T Deps)
    (rest : List (NovumComposite T Deps)) (hc : comps = c0 :: rest)
    (hp : Parallel comps eo fo = some p) :
    p = { value := some (parallelResults comps)
          stateFn := fun s => s
          effects := [parallelSummary comps eo]
          contractFn := fun vals => vals.isSome
          err := none
          deps := c0.deps } := by
  subst hc
  rw [parallel_cons_eq] at hp
  injection hp with hp
  subst hp
  have hstep := parallelStep_eq (c0 :: rest) c0.deps eo
  simp [WithContract, Bind, Return, hstep]

/-- `Run` on the merged chain of a `Parallel` batch, fully evaluated. -/
theorem parallel_run_spec {T Deps : Type} (comps : List (NovumComposite T Deps))
    (eo fo : List Nat) (p : NovumComposite (Option (List T)) Deps) (s : StateLayer)
    (hp : Parallel comps eo fo = some p) :
    p.stateFn = (fun x => x) ∧
    Run p s = (some (parallelResults comps), s, [parallelSummary comps eo], none) := by
  cases comps with
  | nil => simp [Parallel] at hp
  | cons c0 rest =>
    have h := parallel_some_eq (c0 :: rest) eo fo p c0 rest rfl hp
    subst h
    exact ⟨rfl, by rw [run_eq]; simp⟩

/-! The claim theorems. -/

/-- C1 (counterexample): on the batch `[okChild, childA, childB]` in
which the children at indices 1 and 2 fail with distinct errors and the
goroutines reach `errCh` in arrival order `[2, 1, 0]` (index 2 first),
`Run` on the merged chain returns `nil` in its error slot — the failure
is not reported there — and the single log effect records child 2's
error (first by completion), not child 1's (first by index). -/
theorem parallel_error_slot_counterexample :
    Parallel [okChild, childA, childB] [2, 1, 0] [2, 1, 0] = some parallelArrival ∧
    (childRun childA).2.2.2 = some (GoError.bindError GoError.contractViolationBeforeBind) ∧
    (childRun childB).2.2.2 =
      some (GoError.bindError (GoError.bindError GoError.contractViolationBeforeBind)) ∧
    (Run parallelArrival (NewStateLayer 0)).2.2.2 = none ∧
    (Run parallelArrival (NewStateLayer 0)).2.2.1 =
      [NewLogEffect ("Parallel composite error: " ++ GoError.message
        (GoError.bindError (GoError.bindError GoError.contractViolationBeforeBind)))] ∧
    GoError.bindError (GoError.bindError GoError.contractViolationBeforeBind) ≠
      GoError.bindError GoError.contractViolationBeforeBind := by
  refine ⟨?_, by decide, by decide, by decide, by decide, by decide⟩
  rw [parallel_cons_eq]
  rfl

/-- C1 (amended): if at least one child error is received on `errCh`,
`Run` on the merged chain returns `nil` in its error slot; the failure
is reported only through a single log effect recording the first error
in channel receive (completion) order, not the first by index. -/
theorem parallel_error_reporting {T Deps : Type} (comps : List (NovumComposite T Deps))
    (eo fo : List Nat) (p : NovumComposite (Option (List T)) Deps) (s : StateLayer)
    (e : GoError) (hp : Parallel comps eo fo = some p)
    (he : firstErrScan (errsReceived comps eo) = some e) :
    (Run p s).2.2.2 = none ∧
    (Run p s).2.2.1 =
      [NewLogEffect ("Parallel composite error: " ++ GoError.message e)] := by
  have h := (parallel_run_spec comps eo fo p s hp).2
  rw [h]
  simp [parallelSummary, he]

/-- C1 (witness): the amended statement at the singleton failing batch. -/
theorem parallel_error_reporting_witness :
    (Run parallelFailing (NewStateLayer 0)).2.2.2 = none ∧
    (Run parallelFailing (NewStateLayer 0)).2.2.1 =
      [NewLogEffect ("Parallel composite error: " ++
        GoError.message GoError.finalContractViolation)] :=
  parallel_error_reporting [failingChain] [0] [0] parallelFailing (NewStateLayer 0)
    GoError.finalContractViolation (by rw [parallel_cons_eq]; rfl) (by decide)

/-- C2 (counterexample): on the singleton batch whose only child carries
the log effect `"child effect"`, the aggregate effect queue returned by
`Run` on the merged chain is only the terminal success effect; the
child's effect — although aggregated into the discarded `totalEffects`
value — is missing from it. -/
theorem parallel_effects_dropped_counterexample :
    Parallel [childLogged] [0] [0] = some parallelLogged ∧
    totalEffects [childLogged] [0] = [NewLogEffect "child effect"] ∧
    (Run parallelLogged (NewStateLayer 0)).2.2.1 =
      [NewLogEffect "Parallel composite executed successfully"] ∧
    ¬ NewLogEffect "child effect" ∈ (Run parallelLogged (NewStateLayer 0)).2.2.1 := by
  refine ⟨?_, by decide, by decide, by decide⟩
  rw [parallel_cons_eq]
  rfl

/-- C2 (amended): for every batch and every receive order on the two
channels, `Run` on the merged chain yields the result sequence in
caller-supplied index order, the unchanged initial state, no error, and
an aggregate effect queue holding exactly the one terminal
success/failure summary effect — the children's own effects are
discarded. -/
theorem parallel_run_merge {T Deps : Type} (comps : List (NovumComposite T Deps))
    (eo fo : List Nat) (p : NovumComposite (Option (List T)) Deps) (s : StateLayer)
    (hp : Parallel comps eo fo = some p) :
    Run p s = (some (comps.map (fun c => (childRun c).1)), s,
      [parallelSummary comps eo], none) :=
  (parallel_run_spec comps eo fo p s hp).2

/-- C2 (witness): the pair batch `[1, 2]` with both channels received in
arrival order `[1, 0]` still yields results `[1, 2]` and only the
success summary effect. -/
theorem parallel_run_merge_witness :
    Run parallelPair (NewStateLayer 0) =
      (some [1, 2], NewStateLayer 0,
        [NewLogEffect "Parallel composite executed successfully"], none) :=
  Eq.trans
    (parallel_run_merge [childOne, childTwo] [1, 0] [1, 0] parallelPair (NewStateLayer 0)
      (by rw [parallel_cons_eq]; rfl))
    (by decide)

/-- C3 (counterexample): a chain whose terminal error is already set and
whose current value still violates its contract: `Run` returns the final
contract violation, not the sticky terminal error, so contract
evaluation does occur in `Run` after the terminal error is set. -/
theorem sticky_error_counterexample :
    failingChain.err = some GoError.contractViolationBeforeBind ∧
    (Run failingChain (NewStateLayer 0)).2.2.2 = some GoError.finalContractViolation ∧
    some GoError.finalContractViolation ≠ some GoError.contractViolationBeforeBind := by
  decide

/-- C3 (amended): once the terminal error is set, every subsequent
`Bind` is a no-op returning the chain unchanged (without consulting the
contract), and `WithEffect` and `WithContract` never clear the error;
`Run`, however, still evaluates the current contract against the current
value and, when it fails, reports the final contract violation in place
of the terminal error. -/
theorem sticky_error_ops {T Deps : Type} (m : NovumComposite T Deps) (e : GoError)
    (f : T → Deps → NovumComposite T Deps) (eff : EffectFunc) (fn : T → Bool)
    (s : StateLayer) (h : m.err = some e) :
    Bind m f = m ∧
    (WithEffect m eff).err = some e ∧
    (WithContract m fn).err = some e ∧
    (Run m s).2.2.2 =
      (if m.contractFn m.value then some e
       else some GoError.finalContractViolation) := by
  refine ⟨bind_err_eq m f e h, h, h, ?_⟩
  rw [run_eq]
  simp [h]

/-- C3 (witness): the amended statement at a concrete broken chain. -/
theorem sticky_error_ops_witness :
    Bind failingChain stepIdInt = failingChain ∧
    (WithEffect failingChain (NewLogEffect "x")).err =
      some GoError.contractViolationBeforeBind ∧
    (WithContract failingChain contractNonNeg).err =
      some GoError.contractViolationBeforeBind ∧
    (Run failingChain (NewStateLayer 0)).2.2.2 =
      (if failingChain.contractFn failingChain.value
       then some GoError.contractViolationBeforeBind
       else some GoError.finalContractViolation) :=
  sticky_error_ops failingChain GoError.contractViolationBeforeBind stepIdInt
    (NewLogEffect "x") contractNonNeg (NewStateLayer 0) (by decide)

/-- C4 (counterexample): on `Return(-1).WithContract(n >= 0).Bind(id)`,
the chain's sticky error is the before-bind contract violation, but the
error slot returned by `Run` holds the distinct final contract
violation, because `Run` re-evaluates the still-failing contract. -/
theorem contract_skip_counterexample :
    chainNegBound.err = some GoError.contractViolationBeforeBind ∧
    Run chainNegBound (NewStateLayer 0) =
      (-1, NewStateLayer 0, [], some GoError.finalContractViolation) ∧
    GoError.finalContractViolation ≠ GoError.contractViolationBeforeBind := by
  decide

/-- C4 (amended): on a chain constructed on `-1` with contract
`n >= 0`, `Bind(f)` never invokes `f` (its result does not depend on
`f`), the sticky error is the before-bind contract violation, and `Run`
yields the original value `-1` with the final contract violation in the
error slot. -/
theorem contract_skip_bind {Deps : Type} (deps : Deps)
    (f g : Int → Deps → NovumComposite Int Deps) (s : StateLayer) :
    Bind (WithContract (Return (-1) deps) contractNonNeg) f =
      Bind (WithContract (Return (-1) deps) contractNonNeg) g ∧
    (Bind (WithContract (Return (-1) deps) contractNonNeg) f).err =
      some GoError.contractViolationBeforeBind ∧
    Run (Bind (WithContract (Return (-1) deps) contractNonNeg) f) s =
      (-1, s, [], some GoError.finalContractViolation) :=
  ⟨rfl, rfl, rfl⟩

/-- C5: lifting a future whose producer resolved to an error yields a
chain with no terminal error at lift time, on which `Run` always
returns the final contract violation (the always-false contract fails)
together with the log effect recording the future's error message. -/
theorem fromFuture_error_run {T Deps : Type} (zero : T) (deps : Deps)
    (msg : String) (s : StateLayer) :
    (FromFuture zero { resolved := Except.error msg } deps).err = none ∧
    Run (FromFuture zero { resolved := Except.error msg } deps) s =
      (zero, s, [NewLogEffect ("Future error: " ++ msg)],
        some GoError.finalContractViolation) :=
  ⟨rfl, rfl⟩

/-- C6: on the success path, `Bind` composes the state transforms
sequentially (the original chain's first), concatenates the effect
queues (original's first), takes value and contract from the step
result, and keeps the original dependency context; in particular the
`10 → +10 → *2` example chain yields `40` with its two effects in
declaration order and no error (see the witness). -/
theorem bind_success_composition {T Deps : Type} (m : NovumComposite T Deps)
    (f : T → Deps → NovumComposite T Deps)
    (h1 : m.err = none) (h2 : m.contractFn m.value = true)
    (h3 : (f m.value m.deps).err = none) :
    Bind m f =
      { value := (f m.value m.deps).value
        stateFn := fun s => (f m.value m.deps).stateFn (m.stateFn s)
        effects := m.effects ++ (f m.value m.deps).effects
        contractFn := (f m.value m.deps).contractFn
        err := none
        deps := m.deps } :=
  bind_ok_eq m f h1 h2 h3

/-- C6 (witness): the composition law at the second bind of the example
chain, and the example chain's full run: value `40`, the two effects in
declaration order, no error. -/
theorem bind_success_composition_witness :
    (Bind chain20 step_mul2 =
      { value := (step_mul2 chain20.value chain20.deps).value
        stateFn := fun s => (step_mul2 chain20.value chain20.deps).stateFn (chain20.stateFn s)
        effects := chain20.effects ++ (step_mul2 chain20.value chain20.deps).effects
        contractFn := (step_mul2 chain20.value chain20.deps).contractFn
        err := none
        deps := chain20.deps }) ∧
    Run chain40 (NewStateLayer 0) =
      (40, NewStateLayer 0,
        [NewLogEffect "Added 10 to the value", NewLogEffect "Multiplied the value by 2"],
        none) :=
  ⟨bind_success_composition chain20 step_mul2 (by decide) (by decide) (by decide), by decide⟩

/-- C7: `Parallel` reads the first element's dependency context before
anything else, so it is defined exactly on non-empty batches — the
empty batch hits the out-of-range access (modelled by `none`) — and on
a non-empty batch the merged chain's dependency context is the first
child's. -/
theorem parallel_empty_batch {T Deps : Type} (eo fo : List Nat) :
    (∀ comps : List (NovumComposite T Deps), Parallel comps eo fo = none ↔ comps = []) ∧
    (∀ (c0 : NovumComposite T Deps) (rest : List (NovumComposite T Deps)),
      (Parallel (c0 :: rest) eo fo).map (fun p => p.deps) = some c0.deps) := by
  constructor
  · intro comps
    cases comps with
    | nil => simp [Parallel]
    | cons c0 rest =>
      rw [parallel_cons_eq]
      simp
  · intro c0 rest
    rw [parallel_cons_eq]
    simp [WithContract, bind_deps_eq, Return]

/-- C8: when a bind step returns a chain already carrying a terminal
error, `Bind` wraps it as a bind error on the original chain and keeps
the original chain's value and contract. -/
theorem bind_failed_step_wraps {T Deps : Type} (m : NovumComposite T Deps)
    (f : T → Deps → NovumComposite T Deps) (e : GoError)
    (h1 : m.err = none) (h2 : m.contractFn m.value = true)
    (h3 : (f m.value m.deps).err = some e) :
    (Bind m f).err = some (GoError.bindError e) ∧
    (Bind m f).value = m.value ∧
    (Bind m f).contractFn = m.contractFn := by
  rw [bind_next_err_eq m f e h1 h2 h3]
  exact ⟨rfl, rfl, rfl⟩

/-- C8 (witness): the wrap at a concrete failed step. -/
theorem bind_failed_step_wraps_witness :
    (Bind (Return (1 : Int) ()) stepFailing).err =
      some (GoError.bindError GoError.contractViolationBeforeBind) ∧
    (Bind (Return (1 : Int) ()) stepFailing).value = (Return (1 : Int) ()).value ∧
    (Bind (Return (1 : Int) ()) stepFailing).contractFn = (Return (1 : Int) ()).contractFn :=
  bind_failed_step_wraps (Return (1 : Int) ()) stepFailing
    GoError.contractViolationBeforeBind rfl rfl (by decide)

/-- C9: the merged chain of a `Parallel` batch has the identity state
transform (each child runs on a fresh zero-valued carrier and its final
state is discarded), so `Run` returns the initial state unchanged. -/
theorem parallel_state_identity {T Deps : Type} (comps : List (NovumComposite T Deps))
    (eo fo : List Nat) (p : NovumComposite (Option (List T)) Deps) (s : StateLayer)
    (hp : Parallel comps eo fo = some p) :
    p.stateFn = (fun x => x) ∧ (Run p s).2.1 = s := by
  obtain ⟨h1, h2⟩ := parallel_run_spec comps eo fo p s hp
  exact ⟨h1, by rw [h2]⟩

/-- C9 (witness): the state identity at the singleton batch and the
initial state with counter 5. -/
theorem parallel_state_identity_witness :
    parallelSingleton.stateFn = (fun x => x) ∧
    (Run parallelSingleton (NewStateLayer 5)).2.1 = NewStateLayer 5 :=
  parallel_state_identity [Return (1 : Int) ()] [0] [0] parallelSingleton (NewStateLayer 5)
    (by rw [parallel_cons_eq]; rfl)

/-- C10: when a bind step returns a chain carrying a terminal error,
the resulting chain's effect queue and state transform are exactly the
original chain's — the failed step's effects and transform are
discarded. -/
theorem bind_failed_step_frame {T Deps : Type} (m : NovumComposite T Deps)
    (f : T → Deps → NovumComposite T Deps) (e : GoError)
    (h1 : m.err = none) (h2 : m.contractFn m.value = true)
    (h3 : (f m.value m.deps).err = some e) :
    (Bind m f).effects = m.effects ∧ (Bind m f).stateFn = m.stateFn := by
  rw [bind_next_err_eq m f e h1 h2 h3]
  exact ⟨rfl, rfl⟩

/-- C10 (witness): the frame condition at a chain carrying one prior
effect whose step fails. -/
theorem bind_failed_step_frame_witness :
    (Bind (WithEffect (Return (2 : Int) ()) (NewLogEffect "kept")) stepFailing).effects =
      (WithEffect (Return (2 : Int) ()) (NewLogEffect "kept")).effects ∧
    (Bind (WithEffect (Return (2 : Int) ()) (NewLogEffect "kept")) stepFailing).stateFn =
      (WithEffect (Return (2 : Int) ()) (NewLogEffect "kept")).stateFn :=
  bind_failed_step_frame (WithEffect (Return (2 : Int) ()) (NewLogEffect "kept")) stepFailing
    GoError.contractViolationBeforeBind rfl rfl (by decide)

end Novum
